import Mathlib

/-
Verification of the adaptive learning engine of the Vägmärken traffic-sign
quiz app: the SM-2 retention model (src/js/learning/sm2.js), the quiz
selection policy and session controller (quiz engine module), and the
session/streak state (src/js/state.js).

Modelling conventions:
* JS numbers are modelled as exact rationals (ℚ); counters as ℕ; the
  integer results of Math.round as ℤ via Mathlib round (round-half-up,
  matching Math.round).
* Timestamps are rationals measured in days, passed explicitly as a
  now parameter wherever the source calls new Date().
* Math.random is modelled as an oracle rand : ℕ → ℕ supplying, for loop
  index i of the Fisher-Yates shuffle, a value reduced mod (i + 1).
* The async storage facade is modelled by explicit snapshot parameters
  (the latest-session wrong-answer list, the weakest/due id lists, the
  per-sign progress lookup).
* The JS falsy-default idiom x || d on a numeric x is modelled as
  if x = 0 then d else x.
-/

namespace Vagmarken

/-- LearningRecord for one sign, as created and mutated by updateWithSM2
(field names follow src/js/learning/sm2.js). -/
structure Progress where
  signId : ℕ
  category : String
  totalAttempts : ℕ
  correctAttempts : ℕ
  easeFactor : ℚ
  interval : ℤ
  repetitions : ℕ
  nextReviewDate : ℚ
  lastAttemptDate : Option ℚ
  averageResponseTime : ℚ
  lastQuality : Option ℕ
deriving DecidableEq

/-- responseToQuality from src/js/learning/sm2.js: converts a quiz response
to an SM-2 quality rating in {0,1,3,4,5}. The JS expression
(averageTimeMs || 3000) is modelled by the zero test. -/
def responseToQuality (isCorrect : Bool) (responseTimeMs : ℚ) (averageTimeMs : ℚ) : ℕ :=
  if !isCorrect then
    if responseTimeMs < 3000 then 1 else 0
  else
    let timeFactor := responseTimeMs / (if averageTimeMs = 0 then 3000 else averageTimeMs)
    if timeFactor < 0.5 then 5
    else if timeFactor < 1 then 4
    else 3

/-- Result record of calculateSM2. -/
structure SM2Result where
  easeFactor : ℚ
  interval : ℤ
  repetitions : ℕ
deriving DecidableEq

/-- calculateSM2 from src/js/learning/sm2.js: the core SM-2 update. -/
def calculateSM2 (quality : ℕ) (easeFactor : ℚ) (interval : ℤ) (repetitions : ℕ) :
    SM2Result :=
  let newEF := max 1.3 (easeFactor + (0.1 - (5 - (quality : ℚ)) * (0.08 + (5 - (quality : ℚ)) * 0.02)))
  if quality < 3 then
    { easeFactor := newEF, interval := 1, repetitions := 0 }
  else
    let newReps := repetitions + 1
    let newInterval : ℤ :=
      if newReps = 1 then 1
      else if newReps = 2 then 6
      else round ((interval : ℚ) * newEF)
    { easeFactor := newEF, interval := newInterval, repetitions := newReps }

/-- getNextReviewDate from src/js/learning/sm2.js, with time in days:
now plus the interval. -/
def getNextReviewDate (intervalDays : ℤ) (now : ℚ) : ℚ :=
  now + (intervalDays : ℚ)

/-- Default LearningRecord created by updateWithSM2 on first attempt. -/
def defaultProgress (signId : ℕ) (category : String) (now : ℚ) : Progress where
  signId := signId
  category := category
  totalAttempts := 0
  correctAttempts := 0
  easeFactor := 2.5
  interval := 0
  repetitions := 0
  nextReviewDate := now
  lastAttemptDate := none
  averageResponseTime := 3000
  lastQuality := none

/-- updateWithSM2 from src/js/learning/sm2.js: the single mutation path for
a LearningRecord. The stored record (or absence) and the current time are
explicit parameters in place of the storage read and new Date(). -/
def updateWithSM2 (stored : Option Progress) (signId : ℕ) (category : String)
    (isCorrect : Bool) (responseTimeMs : ℚ) (now : ℚ) : Progress :=
  let progress := stored.getD (defaultProgress signId category now)
  let quality := responseToQuality isCorrect responseTimeMs progress.averageResponseTime
  let sm2 := calculateSM2 quality progress.easeFactor progress.interval progress.repetitions
  let newTotal := progress.totalAttempts + 1
  let prevTotal := progress.averageResponseTime * ((newTotal : ℚ) - 1)
  { progress with
    totalAttempts := newTotal
    lastAttemptDate := some now
    averageResponseTime := (prevTotal + responseTimeMs) / (newTotal : ℚ)
    correctAttempts := if isCorrect then progress.correctAttempts + 1 else progress.correctAttempts
    easeFactor := sm2.easeFactor
    interval := sm2.interval
    repetitions := sm2.repetitions
    nextReviewDate := getNextReviewDate sm2.interval now
    lastQuality := some quality }

/-- getRetentionScore from src/js/learning/sm2.js: 0 for an absent record or
no attempts, else a rounded weighted combination of accuracy, normalized
ease factor and repetition count. -/
def getRetentionScore (progress : Option Progress) : ℤ :=
  match progress with
  | none => 0
  | some p =>
    if p.totalAttempts = 0 then 0
    else
      let accuracy : ℚ := (p.correctAttempts : ℚ) / (p.totalAttempts : ℚ)
      let efFactor : ℚ := (p.easeFactor - 1.3) / (2.5 - 1.3)
      let repsFactor : ℚ := min 1 ((p.repetitions : ℚ) / 5)
      round ((accuracy * 0.5 + efFactor * 0.3 + repsFactor * 0.2) * 100)

/-- isDueForReview from src/js/learning/sm2.js: absent records are due;
otherwise due when the next review date has passed. -/
def isDueForReview (progress : Option Progress) (now : ℚ) : Bool :=
  match progress with
  | none => true
  | some p => decide (p.nextReviewDate ≤ now)

/-- qualityFromOutcome as worded in the specification: the average response
time is an optional history value whose absence defaults the denominator
to 3000 ms. -/
def qualityFromOutcome (isCorrect : Bool) (responseTimeMs : ℚ) (avg : Option ℚ) : ℕ :=
  if !isCorrect then
    if responseTimeMs < 3000 then 1 else 0
  else
    let ratio := responseTimeMs / avg.getD 3000
    if ratio < 0.5 then 5
    else if ratio < 1 then 4
    else 3

/-- C1: for every quality in 0..5, calculateSM2 resets repetitions to 0 and
interval to 1 when quality < 3, and otherwise increments repetitions and
sets interval to 1 at repetition 1, 6 at repetition 2, and
round(interval × updated ease factor) for every later repetition. -/
theorem sm2_interval_repetitions (quality : ℕ) (hq : quality ≤ 5)
    (easeFactor : ℚ) (interval : ℤ) (repetitions : ℕ) :
    (quality < 3 →
      (calculateSM2 quality easeFactor interval repetitions).repetitions = 0 ∧
      (calculateSM2 quality easeFactor interval repetitions).interval = 1) ∧
    (3 ≤ quality →
      (calculateSM2 quality easeFactor interval repetitions).repetitions = repetitions + 1 ∧
      (calculateSM2 quality easeFactor interval repetitions).interval =
        (if repetitions + 1 = 1 then 1
         else if repetitions + 1 = 2 then 6
         else round ((interval : ℚ) *
           (calculateSM2 quality easeFactor interval repetitions).easeFactor))) := by
  constructor
  · intro h
    simp [calculateSM2, h]
  · intro h
    have h3 : ¬ quality < 3 := by omega
    refine ⟨by simp [calculateSM2, h3], ?_⟩
    by_cases h1 : repetitions + 1 = 1
    · simp [calculateSM2, h3, h1]
    · by_cases h2 : repetitions + 1 = 2
      · simp [calculateSM2, h3, h1, h2]
      · simp [calculateSM2, h3, h1, h2]

/-- Witness for sm2_interval_repetitions at quality 4. -/
theorem sm2_interval_repetitions_witness :
    ((4 : ℕ) < 3 →
      (calculateSM2 4 2.5 6 2).repetitions = 0 ∧
      (calculateSM2 4 2.5 6 2).interval = 1) ∧
    (3 ≤ (4 : ℕ) →
      (calculateSM2 4 2.5 6 2).repetitions = 2 + 1 ∧
      (calculateSM2 4 2.5 6 2).interval =
        (if 2 + 1 = 1 then 1
         else if 2 + 1 = 2 then 6
         else round ((6 : ℚ) * (calculateSM2 4 2.5 6 2).easeFactor))) :=
  sm2_interval_repetitions 4 (by decide) 2.5 6 2

/-- C2: the ease factor produced by calculateSM2, and hence the ease factor
of the record produced by any call of updateWithSM2 (the single mutation
path for LearningRecord), is at least 1.3. -/
theorem easeFactor_floor (stored : Option Progress) (signId : ℕ) (category : String)
    (isCorrect : Bool) (responseTimeMs : ℚ) (now : ℚ)
    (quality : ℕ) (easeFactor : ℚ) (interval : ℤ) (repetitions : ℕ) :
    (1.3 : ℚ) ≤ (calculateSM2 quality easeFactor interval repetitions).easeFactor ∧
    (1.3 : ℚ) ≤ (updateWithSM2 stored signId category isCorrect responseTimeMs now).easeFactor := by
  have base : ∀ (q : ℕ) (ef : ℚ) (iv : ℤ) (reps : ℕ),
      (1.3 : ℚ) ≤ (calculateSM2 q ef iv reps).easeFactor := by
    intro q ef iv reps
    unfold calculateSM2
    by_cases h : q < 3 <;> simp [h, le_max_left]
  exact ⟨base _ _ _ _, base _ _ _ _⟩

/-- C3: responseToQuality maps incorrect answers to quality 1 under 3000 ms
and 0 otherwise; correct answers map via the ratio of response time to the
average response time (denominator defaulting to 3000 when there is no
history, i.e. a zero average) to 5 below ratio 0.5, 4 below 1.0, else 3. -/
theorem responseToQuality_spec (isCorrect : Bool) (t : ℚ) (a : ℚ) (ha : 0 < a) :
    responseToQuality isCorrect t a = qualityFromOutcome isCorrect t (some a) ∧
    responseToQuality isCorrect t 0 = qualityFromOutcome isCorrect t none ∧
    (isCorrect = false → responseToQuality isCorrect t a = if t < 3000 then 1 else 0) ∧
    (isCorrect = true →
      responseToQuality isCorrect t a =
        (if t / a < 0.5 then 5 else if t / a < 1 then 4 else 3)) := by
  have hne : a ≠ 0 := ne_of_gt ha
  refine ⟨?_, ?_, ?_, ?_⟩
  · simp [responseToQuality, qualityFromOutcome, hne]
  · simp [responseToQuality, qualityFromOutcome]
  · intro h; subst h; simp [responseToQuality]
  · intro h; subst h; simp [responseToQuality, hne]

/-- Witness for responseToQuality_spec: a correct answer in 1000 ms against
a 3000 ms average is quality 5. -/
theorem responseToQuality_spec_witness :
    (0 : ℚ) < 3000 ∧
    (responseToQuality true 1000 3000 = qualityFromOutcome true 1000 (some 3000) ∧
     responseToQuality true 1000 0 = qualityFromOutcome true 1000 none ∧
     (true = false → responseToQuality true 1000 3000 = if (1000 : ℚ) < 3000 then 1 else 0) ∧
     (true = true →
       responseToQuality true 1000 3000 =
         (if (1000 : ℚ) / 3000 < 0.5 then 5 else if (1000 : ℚ) / 3000 < 1 then 4 else 3))) :=
  ⟨by norm_num, responseToQuality_spec true 1000 3000 (by norm_num)⟩

/-- C8 counterexample: for the default record, an incorrect answer in 5000 ms
gives quality 0 and an updated ease factor of 1.7 = 2.5 + (0.1 − 0.9),
not 1.6 as the claim states. -/
theorem scenarioB_easeFactor_not_16 :
    responseToQuality false 5000 3000 = 0 ∧
    (calculateSM2 0 2.5 0 0).easeFactor = 1.7 ∧
    (calculateSM2 0 2.5 0 0).easeFactor ≠ 1.6 := by
  refine ⟨by norm_num [responseToQuality], ?_, ?_⟩ <;>
    norm_num [calculateSM2, max_def]

/-- C8 amended: from the default record (easeFactor 2.5, interval 0,
repetitions 0), an incorrect answer taking 5000 ms yields quality 0, and
SM-2 gives repetitions 0, interval 1 and ease factor
max(1.3, 2.5 + (0.1 − 0.9)) = 1.7. -/
theorem scenarioB_amended :
    responseToQuality false 5000 3000 = 0 ∧
    (calculateSM2 0 2.5 0 0).repetitions = 0 ∧
    (calculateSM2 0 2.5 0 0).interval = 1 ∧
    (calculateSM2 0 2.5 0 0).easeFactor = 1.7 := by
  refine ⟨by norm_num [responseToQuality], ?_, ?_, ?_⟩ <;>
    norm_num [calculateSM2, max_def]

/-- Record obtained from an absent record by one perfect answer (1000 ms
against the 3000 ms default average), via updateWithSM2. -/
def perfectRun1 : Progress := updateWithSM2 none 1 "warning" true 1000 0

/-- Second consecutive perfect answer (400 ms against the 1000 ms average). -/
def perfectRun2 : Progress := updateWithSM2 (some perfectRun1) 1 "warning" true 400 0

/-- Third consecutive perfect answer. -/
def perfectRun3 : Progress := updateWithSM2 (some perfectRun2) 1 "warning" true 300 0

/-- Fourth consecutive perfect answer. -/
def perfectRun4 : Progress := updateWithSM2 (some perfectRun3) 1 "warning" true 200 0

/-- Fifth consecutive perfect answer: ease factor 3.0, five repetitions,
perfect accuracy. -/
def perfectRun5 : Progress := updateWithSM2 (some perfectRun4) 1 "warning" true 100 0

/-- C4 counterexample: a record reachable by five calls of updateWithSM2
(five perfect answers from scratch) has ease factor 3.0 and retention
score 113, exceeding 100. -/
theorem retentionScore_exceeds_100 :
    perfectRun5.easeFactor = 3 ∧
    perfectRun5.totalAttempts = 5 ∧
    perfectRun5.correctAttempts = 5 ∧
    perfectRun5.repetitions = 5 ∧
    getRetentionScore (some perfectRun5) = 113 ∧
    100 < getRetentionScore (some perfectRun5) := by
  have e1 : perfectRun1 = ⟨1, "warning", 1, 1, 2.6, 1, 1, 1, some 0, 1000, some 5⟩ := by
    unfold perfectRun1
    norm_num [updateWithSM2, defaultProgress, responseToQuality, calculateSM2,
      getNextReviewDate, max_def]
  have e2 : perfectRun2 = ⟨1, "warning", 2, 2, 2.7, 6, 2, 6, some 0, 700, some 5⟩ := by
    unfold perfectRun2
    rw [e1]
    norm_num [updateWithSM2, defaultProgress, responseToQuality, calculateSM2,
      getNextReviewDate, max_def]
  have e3 : perfectRun3 = ⟨1, "warning", 3, 3, 2.8, 17, 3, 17, some 0, 1700/3, some 5⟩ := by
    unfold perfectRun3
    rw [e2]
    norm_num [updateWithSM2, defaultProgress, responseToQuality, calculateSM2,
      getNextReviewDate, max_def, round_eq]
  have e4 : perfectRun4 = ⟨1, "warning", 4, 4, 2.9, 49, 4, 49, some 0, 475, some 5⟩ := by
    unfold perfectRun4
    rw [e3]
    norm_num [updateWithSM2, defaultProgress, responseToQuality, calculateSM2,
      getNextReviewDate, max_def, round_eq]
  have e5 : perfectRun5 = ⟨1, "warning", 5, 5, 3, 147, 5, 147, some 0, 400, some 5⟩ := by
    unfold perfectRun5
    rw [e4]
    norm_num [updateWithSM2, defaultProgress, responseToQuality, calculateSM2,
      getNextReviewDate, max_def, round_eq]
  rw [e5]
  norm_num [getRetentionScore, round_eq]

/-- C4 amended: for a record with correctAttempts ≤ totalAttempts and the
1.3 ease-factor floor, getRetentionScore is 0 when totalAttempts = 0 and
otherwise round(100 × (0.5·accuracy + 0.3·easeFactorNorm +
0.2·min(1, repetitions/5))); it is always ≥ 0, and it is ≤ 100 whenever
easeFactor ≤ 2.5 — but not in general, since the ease factor is not
clamped above. -/
theorem retentionScore_range (p : Progress)
    (hc : p.correctAttempts ≤ p.totalAttempts) (hef : (1.3 : ℚ) ≤ p.easeFactor) :
    (p.totalAttempts = 0 → getRetentionScore (some p) = 0) ∧
    (p.totalAttempts ≠ 0 → getRetentionScore (some p) =
      round ((100 : ℚ) * (0.5 * ((p.correctAttempts : ℚ) / (p.totalAttempts : ℚ))
        + 0.3 * ((p.easeFactor - 1.3) / (2.5 - 1.3))
        + 0.2 * min 1 ((p.repetitions : ℚ) / 5)))) ∧
    0 ≤ getRetentionScore (some p) ∧
    (p.easeFactor ≤ 2.5 → getRetentionScore (some p) ≤ 100) := by
  refine ⟨fun h => by simp [getRetentionScore, h], fun h => ?_, ?_, fun hle => ?_⟩
  · simp only [getRetentionScore, if_neg h]
    congr 1
    ring
  · by_cases h : p.totalAttempts = 0
    · simp [getRetentionScore, h]
    · simp only [getRetentionScore, if_neg h]
      rw [round_eq]
      refine Int.le_floor.mpr ?_
      have h1 : (0 : ℚ) ≤ (p.correctAttempts : ℚ) / (p.totalAttempts : ℚ) := by positivity
      have h2 : (0 : ℚ) ≤ (p.easeFactor - 1.3) / (2.5 - 1.3) := by
        apply div_nonneg (by linarith) (by norm_num)
      have h3 : (0 : ℚ) ≤ min 1 ((p.repetitions : ℚ) / 5) :=
        le_min (by norm_num) (by positivity)
      push_cast
      linarith
  · by_cases h : p.totalAttempts = 0
    · simp [getRetentionScore, h]
    · simp only [getRetentionScore, if_neg h]
      have ht : (0 : ℚ) < (p.totalAttempts : ℚ) := by
        exact_mod_cast Nat.pos_of_ne_zero h
      have h1 : (p.correctAttempts : ℚ) / (p.totalAttempts : ℚ) ≤ 1 := by
        rw [div_le_one ht]
        exact_mod_cast hc
      have h1' : (0 : ℚ) ≤ (p.correctAttempts : ℚ) / (p.totalAttempts : ℚ) := by positivity
      have h2 : (p.easeFactor - 1.3) / (2.5 - 1.3) ≤ 1 := by
        rw [div_le_one (by norm_num)]
        linarith
      have h2' : (0 : ℚ) ≤ (p.easeFactor - 1.3) / (2.5 - 1.3) := by
        apply div_nonneg (by linarith) (by norm_num)
      have h3 : min 1 ((p.repetitions : ℚ) / 5) ≤ 1 := min_le_left _ _
      have h3' : (0 : ℚ) ≤ min 1 ((p.repetitions : ℚ) / 5) :=
        le_min (by norm_num) (by positivity)
      rw [round_eq]
      have hlt : ⌊((p.correctAttempts : ℚ) / (p.totalAttempts : ℚ) * 0.5
          + (p.easeFactor - 1.3) / (2.5 - 1.3) * 0.3
          + min 1 ((p.repetitions : ℚ) / 5) * 0.2) * 100 + 1 / 2⌋ < 101 := by
        refine Int.floor_lt.mpr ?_
        push_cast
        linarith
      omega

/-- Concrete record used to witness retentionScore_range: two attempts, one
correct, ease factor 2.5, two repetitions. -/
def demoProgress : Progress where
  signId := 1
  category := "warning"
  totalAttempts := 2
  correctAttempts := 1
  easeFactor := 2.5
  interval := 6
  repetitions := 2
  nextReviewDate := 0
  lastAttemptDate := none
  averageResponseTime := 3000
  lastQuality := some 4

/-- Witness for retentionScore_range at demoProgress. -/
theorem retentionScore_range_witness :
    (demoProgress.correctAttempts ≤ demoProgress.totalAttempts ∧
      (1.3 : ℚ) ≤ demoProgress.easeFactor) ∧
    0 ≤ getRetentionScore (some demoProgress) ∧
    (demoProgress.easeFactor ≤ 2.5 → getRetentionScore (some demoProgress) ≤ 100) :=
  ⟨⟨by decide, by norm_num [demoProgress]⟩,
    (retentionScore_range demoProgress (by decide) (by norm_num [demoProgress])).2.2.1,
    (retentionScore_range demoProgress (by decide) (by norm_num [demoProgress])).2.2.2⟩

/-- A traffic sign as used by the quiz engine; only the fields the
selection logic reads are modelled (display-only fields such as name,
image hash and category colours are omitted). The difficulty field is
optional, matching the JS idiom (sign.difficulty || 2). -/
structure Sign where
  id : ℕ
  difficulty : Option ℕ
  category : String
deriving DecidableEq

/-- Candidate construction of selectQuizSigns: every sign of every selected
category, tagged with its category key (signData[catKey] indexing is
modelled by association-list lookup; a missing category contributes
nothing). -/
def buildCandidates (signData : List (String × List Sign)) (selectedCategories : List String) :
    List Sign :=
  selectedCategories.flatMap fun catKey =>
    match signData.lookup catKey with
    | some signs => signs.map fun s => { s with category := catKey }
    | none => []

/-- filterByDifficulty from the question-types module: adaptive skips
filtering; easy/medium/hard map to the inclusive difficulty sets
{1,2}/{2,3,4}/{3,4,5}; any other value allows 1..5; a missing (or zero,
by JS falsiness) sign difficulty defaults to 2. -/
def filterByDifficulty (signs : List Sign) (difficulty : String) : List Sign :=
  if difficulty = "adaptive" then signs
  else
    let allowedDifficulties : List ℕ :=
      if difficulty = "easy" then [1, 2]
      else if difficulty = "medium" then [2, 3, 4]
      else if difficulty = "hard" then [3, 4, 5]
      else [1, 2, 3, 4, 5]
    signs.filter fun sign =>
      let signDifficulty :=
        match sign.difficulty with
        | none => 2
        | some d => if d = 0 then 2 else d
      allowedDifficulties.contains signDifficulty

/-- One Fisher-Yates swap: exchange positions i and j when both are in
bounds (they always are for the indices the shuffle generates). -/
def listSwap (l : List α) (i j : ℕ) : List α :=
  match l[i]?, l[j]? with
  | some a, some b => (l.set i b).set j a
  | _, _ => l

/-- The Fisher-Yates loop of shuffleArray: for i from the top index down
to 1, swap position i with position rand i % (i + 1); the oracle rand
models Math.floor(Math.random() × (i + 1)). -/
def fisherYatesAux (rand : ℕ → ℕ) : ℕ → List α → List α
  | 0, arr => arr
  | i + 1, arr => fisherYatesAux rand i (listSwap arr (i + 1) (rand (i + 1) % (i + 2)))

/-- shuffleArray from the question-types module (Fisher-Yates over a copy
of the array), with the randomness supplied by the oracle. -/
def shuffleArray (rand : ℕ → ℕ) (array : List α) : List α :=
  fisherYatesAux rand (array.length - 1) array

/-- Quiz modes of selectQuizSigns; any other mode string falls to the
default (standard) branch, so the default is modelled as standard. -/
inductive QuizMode
  | standard
  | missed
  | weakest
  | spaced
  | adaptive
deriving DecidableEq

/-- Snapshot of the async storage reads selectQuizSigns performs: the
wrong-answer ids of the most recent prior quiz session (none when no
session exists), the ids returned by getWeakestSigns, the ids returned by
getDueForReview, and all stored progress records. -/
structure StoreSnapshot where
  latestSessionWrong : Option (List ℕ)
  weakestIds : List ℕ
  dueIds : List ℕ
  allProgress : List Progress
deriving DecidableEq

/-- The progressMap of the adaptive branch: new Map(allProgress.map(p =>
[p.signId, p])), modelled as first-match lookup by sign id. -/
def progressMap (snap : StoreSnapshot) (id : ℕ) : Option Progress :=
  snap.allProgress.find? fun p => p.signId = id

/-- Priority scoring of the adaptive branch: each candidate paired with its
learning priority — base 50 for never-attempted signs, 100 − retention for
due signs, 20 − retention × 0.2 for known-but-not-due signs. -/
def adaptiveScored (candidates : List Sign) (snap : StoreSnapshot) (now : ℚ) :
    List (Sign × ℚ) :=
  candidates.map fun sign =>
    match progressMap snap sign.id with
    | none => (sign, (50 : ℚ))
    | some progress =>
      let retention := getRetentionScore (some progress)
      if isDueForReview (some progress) now then (sign, 100 - (retention : ℚ))
      else (sign, 20 - (retention : ℚ) * 0.2)

/-- The sort of the adaptive branch: scored.sort((a, b) => b.priority −
a.priority), i.e. a stable descending sort on priority (Array.sort is
stable per the ECMAScript specification), modelled by mergeSort. -/
def adaptiveSorted (candidates : List Sign) (snap : StoreSnapshot) (now : ℚ) :
    List (Sign × ℚ) :=
  (adaptiveScored candidates snap now).mergeSort fun a b => decide (b.2 ≤ a.2)

/-- selectQuizSigns from the quiz engine, per mode, over the candidate list
already built and difficulty-filtered. -/
def selectQuizSigns (mode : QuizMode) (candidates : List Sign) (questionsPerQuiz : ℕ)
    (snap : StoreSnapshot) (rand : ℕ → ℕ) (now : ℚ) : List Sign :=
  match mode with
  | .missed =>
    let selected :=
      match snap.latestSessionWrong with
      | some wrong => if wrong.length > 0 then candidates.filter (fun s => wrong.contains s.id) else []
      | none => []
    if selected.length < 5 then
      let remaining := candidates.filter fun s => !(selected.any fun sel => sel.id = s.id)
      selected ++ (shuffleArray rand remaining).take (questionsPerQuiz - selected.length)
    else selected
  | .weakest =>
    let selected := candidates.filter fun s => snap.weakestIds.contains s.id
    if selected.length < questionsPerQuiz then
      let remaining := candidates.filter fun s => !(selected.any fun sel => sel.id = s.id)
      selected ++ (shuffleArray rand remaining).take (questionsPerQuiz - selected.length)
    else selected
  | .spaced =>
    let selected := candidates.filter fun s => snap.dueIds.contains s.id
    if selected.length < questionsPerQuiz then
      let studiedIds := snap.allProgress.map Progress.signId
      let newSigns := candidates.filter fun s => !(studiedIds.contains s.id)
      selected ++ (shuffleArray rand newSigns).take (questionsPerQuiz - selected.length)
    else selected
  | .adaptive =>
    ((adaptiveSorted candidates snap now).take questionsPerQuiz).map Prod.fst
  | .standard =>
    (shuffleArray rand candidates).take questionsPerQuiz

/-- startQuiz from the quiz engine: false when no category is selected;
otherwise reset, select, and report whether any sign was selected. -/
def startQuiz (signData : List (String × List Sign)) (selectedCategories : List String)
    (difficulty : String) (mode : QuizMode) (questionsPerQuiz : ℕ)
    (snap : StoreSnapshot) (rand : ℕ → ℕ) (now : ℚ) : Bool :=
  if selectedCategories.isEmpty then false
  else
    let selected := selectQuizSigns mode
      (filterByDifficulty (buildCandidates signData selectedCategories) difficulty)
      questionsPerQuiz snap rand now
    !selected.isEmpty

/-- Adaptive priority as worded in the specification table. -/
def adaptivePrioritySpec (progress : Option Progress) (now : ℚ) : ℚ :=
  match progress with
  | none => 50
  | some p =>
    if isDueForReview (some p) now then 100 - (getRetentionScore (some p) : ℚ)
    else 20 - (getRetentionScore (some p) : ℚ) * 0.2

/-- Adaptive selection as worded in the specification: score every
candidate via adaptivePrioritySpec on a progress lookup, sort descending
(stably), take the top N. -/
def selectAdaptiveSpec (candidates : List Sign) (lookup : ℕ → Option Progress)
    (targetCount : ℕ) (now : ℚ) : List Sign :=
  (((candidates.map fun s => (s, adaptivePrioritySpec (lookup s.id) now)).mergeSort
    fun a b => decide (b.2 ≤ a.2)).take targetCount).map Prod.fst

theorem listSwap_perm [DecidableEq α] (l : List α) (i j : ℕ) :
    List.Perm (listSwap l i j) l := by
  rcases hi : l[i]? with _ | a <;> rcases hj : l[j]? with _ | b <;>
    simp only [listSwap, hi, hj]
  · exact List.Perm.refl l
  · exact List.Perm.refl l
  · exact List.Perm.refl l
  · obtain ⟨hil, hia⟩ := List.getElem?_eq_some_iff.mp hi
    obtain ⟨hjl, hjb⟩ := List.getElem?_eq_some_iff.mp hj
    have hjm : j < (l.set i b).length := by simpa using hjl
    have hmb : (l.set i b)[j] = b := by
      by_cases hij : i = j
      · subst hij
        simp
      · rw [List.getElem_set_ne hij hjm]
        exact hjb
    obtain ⟨l₁, l₂, hdec1, -, hset1⟩ := @List.exists_of_set _ _ b _ hil
    obtain ⟨m₁, m₂, hdec2, -, hset2⟩ := @List.exists_of_set _ _ a _ hjm
    rw [hmb] at hdec2
    rw [hia] at hdec1
    rw [List.perm_iff_count]
    intro x
    have hm : (l₁ ++ b :: l₂).count x = (m₁ ++ b :: m₂).count x := by
      rw [← hset1, ← hdec2]
    rw [hset2, hdec1]
    simp only [List.count_append, List.count_cons, beq_iff_eq] at hm ⊢
    split_ifs at hm ⊢ <;> omega

theorem fisherYatesAux_perm [DecidableEq α] (rand : ℕ → ℕ) (n : ℕ) (l : List α) :
    List.Perm (fisherYatesAux rand n l) l := by
  induction n generalizing l with
  | zero => exact List.Perm.refl l
  | succ i ih =>
    exact (ih _).trans (listSwap_perm l (i + 1) (rand (i + 1) % (i + 2)))

/-- shuffleArray permutes its input for every randomness oracle. -/
theorem shuffleArray_perm [DecidableEq α] (rand : ℕ → ℕ) (l : List α) :
    List.Perm (shuffleArray rand l) l :=
  fisherYatesAux_perm rand (l.length - 1) l

/-- C5: adaptive-mode selection coincides with the specification policy —
each candidate scored 100 − retention when due, 50 when never attempted,
20 − retention × 0.2 when known but not due, stably sorted by descending
score — and it returns exactly min(N, pool size) items, with no fallback
step (the randomness oracle is never consulted). -/
theorem adaptive_selection_spec (candidates : List Sign) (questionsPerQuiz : ℕ)
    (snap : StoreSnapshot) (rand : ℕ → ℕ) (now : ℚ) :
    selectQuizSigns .adaptive candidates questionsPerQuiz snap rand now =
      selectAdaptiveSpec candidates (progressMap snap) questionsPerQuiz now ∧
    (selectQuizSigns .adaptive candidates questionsPerQuiz snap rand now).length =
      min questionsPerQuiz candidates.length := by
  have hf : (adaptiveScored candidates snap now) =
      candidates.map fun s => (s, adaptivePrioritySpec (progressMap snap s.id) now) := by
    unfold adaptiveScored
    refine List.map_congr_left fun s _ => ?_
    cases h : progressMap snap s.id with
    | none => simp [adaptivePrioritySpec]
    | some p =>
      simp only [adaptivePrioritySpec]
      split <;> rfl
  constructor
  · simp only [selectQuizSigns, selectAdaptiveSpec, adaptiveSorted, hf]
  · simp [selectQuizSigns, adaptiveSorted, adaptiveScored, List.length_take, Nat.min_comm]

/-- C6: adaptive-mode selection is deterministic — it does not read the
randomness oracle, so identical pools and identical progress snapshots give
identical ordered output — and its sort is stable: for every priority
value, the sorted list restricted to candidates of that priority is exactly
the scored candidate list restricted to it, in original pool order. -/
theorem adaptive_deterministic_stable (candidates : List Sign) (questionsPerQuiz : ℕ)
    (snap : StoreSnapshot) (rand₁ rand₂ : ℕ → ℕ) (now : ℚ) (c : ℚ) :
    selectQuizSigns .adaptive candidates questionsPerQuiz snap rand₁ now =
      selectQuizSigns .adaptive candidates questionsPerQuiz snap rand₂ now ∧
    (adaptiveSorted candidates snap now).filter (fun x => decide (x.2 = c)) =
      (adaptiveScored candidates snap now).filter (fun x => decide (x.2 = c)) := by
  refine ⟨rfl, ?_⟩
  set le : Sign × ℚ → Sign × ℚ → Bool := fun a b => decide (b.2 ≤ a.2) with hle
  have htrans : ∀ (a b d : Sign × ℚ), le a b → le b d → le a d := by
    intro a b d hab hbd
    simp only [hle, decide_eq_true_eq] at hab hbd ⊢
    exact hbd.trans hab
  have htotal : ∀ (a b : Sign × ℚ), le a b || le b a := by
    intro a b
    simp only [hle, Bool.or_eq_true, decide_eq_true_eq]
    exact le_total b.2 a.2
  have hsub : List.Sublist
      ((adaptiveScored candidates snap now).filter (fun x => decide (x.2 = c)))
      (adaptiveSorted candidates snap now) := by
    apply List.sublist_mergeSort htrans htotal
    · refine List.pairwise_of_forall_mem_list fun a ha b hb => ?_
      have ha2 := (List.mem_filter.mp ha).2
      have hb2 := (List.mem_filter.mp hb).2
      simp only [decide_eq_true_eq] at ha2 hb2
      simp only [hle, decide_eq_true_eq, ha2, hb2, le_refl]
    · exact List.filter_sublist _
  have hperm : List.Perm
      ((adaptiveSorted candidates snap now).filter (fun x => decide (x.2 = c)))
      ((adaptiveScored candidates snap now).filter (fun x => decide (x.2 = c))) :=
    (List.mergeSort_perm _ _).filter _
  have hsub2 : List.Sublist
      ((adaptiveScored candidates snap now).filter (fun x => decide (x.2 = c)))
      ((adaptiveSorted candidates snap now).filter (fun x => decide (x.2 = c))) := by
    have := hsub.filter (fun x => decide (x.2 = c))
    rwa [List.filter_filter, show ∀ p : Sign × ℚ → Bool,
      (fun a => p a && p a) = p from fun p => funext fun a => Bool.and_self _] at this
  exact (hsub2.eq_of_length hperm.length_eq.symm).symm

/-- C9: startQuiz returns false exactly when the category selection is
empty or the selected-sign list comes back empty, and true on every other
input, so the caller can branch synchronously on the boolean. -/
theorem startQuiz_false_iff (signData : List (String × List Sign))
    (selectedCategories : List String) (difficulty : String) (mode : QuizMode)
    (questionsPerQuiz : ℕ) (snap : StoreSnapshot) (rand : ℕ → ℕ) (now : ℚ) :
    (startQuiz signData selectedCategories difficulty mode questionsPerQuiz snap rand now
        = false ↔
      selectedCategories = [] ∨
      selectQuizSigns mode
        (filterByDifficulty (buildCandidates signData selectedCategories) difficulty)
        questionsPerQuiz snap rand now = []) ∧
    (startQuiz signData selectedCategories difficulty mode questionsPerQuiz snap rand now
        = true ↔
      selectedCategories ≠ [] ∧
      selectQuizSigns mode
        (filterByDifficulty (buildCandidates signData selectedCategories) difficulty)
        questionsPerQuiz snap rand now ≠ []) := by
  unfold startQuiz
  by_cases h : selectedCategories.isEmpty <;>
    simp_all [List.isEmpty_iff, List.isEmpty_eq_false]

/-- A pool of ten distinct signs with ids 0..9. -/
def poolTen : List Sign := (List.range 10).map fun i => ⟨i, none, "warning"⟩

/-- Snapshot whose most recent session has five wrong answers (ids 0..4). -/
def snapFiveMissed : StoreSnapshot := ⟨some [0, 1, 2, 3, 4], [], [], []⟩

/-- Snapshot whose most recent session has three wrong answers (ids 0..2). -/
def snapThreeMissed : StoreSnapshot := ⟨some [0, 1, 2], [], [], []⟩

/-- C7 counterexample: with five missed-eligible candidates in a pool of
ten and target count 10, missed-mode selection returns only the five
missed items — the fill step runs only when fewer than five items were
selected, not whenever the selection is short of the target count. -/
theorem missed_no_fill_counterexample :
    (selectQuizSigns .missed poolTen 10 snapFiveMissed (fun _ => 0) 0).length = 5 ∧
    (selectQuizSigns .missed poolTen 10 snapFiveMissed (fun _ => 0) 0).length ≠
      min 10 poolTen.length := by
  constructor <;> decide

/-- C7 amended: missed-mode selection takes the candidates in the most
recent prior session wrong-answer list, and only when that primary
selection has fewer than five items does it append randomly chosen pool
items not already selected; in that case (with distinct candidate ids and
primary size ≤ target) the result has exactly min(targetCount, pool size)
items with no duplicates — covering the scenario of three missed-eligible
candidates, pool ≥ 10 and target 10 yielding ten distinct items. -/
theorem missed_fill_amended (candidates : List Sign) (wrong : List ℕ)
    (questionsPerQuiz : ℕ) (snap : StoreSnapshot) (rand : ℕ → ℕ) (now : ℚ)
    (hnodup : (candidates.map Sign.id).Nodup)
    (hwrong : snap.latestSessionWrong = some wrong)
    (hshort : (candidates.filter fun s => wrong.contains s.id).length < 5)
    (hle : (candidates.filter fun s => wrong.contains s.id).length ≤ questionsPerQuiz) :
    (selectQuizSigns .missed candidates questionsPerQuiz snap rand now).length =
      min questionsPerQuiz candidates.length ∧
    ((selectQuizSigns .missed candidates questionsPerQuiz snap rand now).map Sign.id).Nodup := by
  set p : Sign → Bool := fun s => wrong.contains s.id with hp
  set S := candidates.filter p with hS
  have hbranch : (match snap.latestSessionWrong with
      | some w => if w.length > 0 then candidates.filter (fun s => w.contains s.id) else []
      | none => []) = S := by
    rw [hwrong]
    by_cases hw : wrong.length > 0
    · simp only [if_pos hw]
    · have hnil : wrong = [] := List.length_eq_zero.mp (by omega)
      subst hnil
      simp [hS, hp]
  have hsel : selectQuizSigns .missed candidates questionsPerQuiz snap rand now =
      S ++ (shuffleArray rand
        (candidates.filter fun s => !(S.any fun sel => sel.id = s.id))).take
        (questionsPerQuiz - S.length) := by
    simp only [selectQuizSigns]
    rw [hbranch, if_pos (by rw [hS] at hshort ⊢; exact hshort)]
  set R := candidates.filter fun s => !(S.any fun sel => sel.id = s.id) with hRdef
  have key : ∀ s ∈ candidates, (S.any fun sel => sel.id = s.id) = p s := by
    intro s hs
    by_cases hps : p s = true
    · rw [hps]
      exact List.any_eq_true.mpr ⟨s, List.mem_filter.mpr ⟨hs, hps⟩, by simp⟩
    · rw [Bool.not_eq_true] at hps
      rw [hps]
      rw [List.any_eq_false]
      intro sel hsel'
      have hpsel := (List.mem_filter.mp hsel').2
      intro hid
      rw [decide_eq_true_eq] at hid
      have h1 : wrong.contains sel.id = true := hpsel
      have h2 : wrong.contains s.id = false := hps
      rw [hid] at h1
      rw [h1] at h2
      cases h2
  have hR : R = candidates.filter fun s => !(p s) := by
    rw [hRdef]
    exact List.filter_congr fun s hs => by rw [key s hs]
  have hsum : candidates.length = S.length + R.length := by
    rw [hR, hS]
    exact List.length_eq_length_filter_add p
  have hperm : List.Perm (shuffleArray rand R) R := shuffleArray_perm rand R
  have hlenR : (shuffleArray rand R).length = R.length := hperm.length_eq
  constructor
  · rw [hsel]
    simp only [List.length_append, List.length_take, hlenR]
    omega
  · rw [hsel, List.map_append, List.nodup_append]
    have hSsub : List.Sublist (S.map Sign.id) (candidates.map Sign.id) :=
      (List.filter_sublist _).map _
    have hRsub : List.Sublist (R.map Sign.id) (candidates.map Sign.id) :=
      (List.filter_sublist _).map _
    have hSnodup : (S.map Sign.id).Nodup := List.Nodup.sublist hSsub hnodup
    have hRnodup : (R.map Sign.id).Nodup := List.Nodup.sublist hRsub hnodup
    have hshufnodup : ((shuffleArray rand R).map Sign.id).Nodup :=
      ((hperm.map Sign.id).nodup_iff).mpr hRnodup
    refine ⟨hSnodup, ?_, ?_⟩
    · rw [List.map_take]
      exact List.Nodup.sublist (List.take_sublist _ _) hshufnodup
    · intro x hx1 hx2
      obtain ⟨s1, hs1S, hs1id⟩ := List.mem_map.mp hx1
      obtain ⟨s2, hs2T, hs2id⟩ := List.mem_map.mp hx2
      have hs1p : p s1 = true := (List.mem_filter.mp hs1S).2
      have hs2R : s2 ∈ R := hperm.mem_iff.mp ((List.take_sublist _ _).subset hs2T)
      have hs2p : (!(p s2)) = true := by
        rw [hR] at hs2R
        exact (List.mem_filter.mp hs2R).2
      rw [Bool.not_eq_true'] at hs2p
      have h1 : wrong.contains s1.id = true := hs1p
      have h2 : wrong.contains s2.id = false := hs2p
      rw [hs1id] at h1
      rw [hs2id] at h2
      rw [h2] at h1
      cases h1

/-- Witness for missed_fill_amended: three missed-eligible candidates in a
pool of ten with target 10 give exactly ten distinct items. -/
theorem missed_fill_amended_witness :
    ((poolTen.map Sign.id).Nodup ∧
      snapThreeMissed.latestSessionWrong = some [0, 1, 2] ∧
      (poolTen.filter fun s => [0, 1, 2].contains s.id).length < 5 ∧
      (poolTen.filter fun s => [0, 1, 2].contains s.id).length ≤ 10) ∧
    (selectQuizSigns .missed poolTen 10 snapThreeMissed (fun _ => 0) 0).length =
      min 10 poolTen.length ∧
    ((selectQuizSigns .missed poolTen 10 snapThreeMissed (fun _ => 0) 0).map Sign.id).Nodup :=
  ⟨⟨by decide, rfl, by decide, by decide⟩,
    missed_fill_amended poolTen [0, 1, 2] 10 snapThreeMissed (fun _ => 0) 0
      (by decide) rfl (by decide) (by decide)⟩

/-- The slice of the application state relevant to streak accounting
(src/js/state.js); bestStreak is loaded from persisted settings at startup
and survives quiz resets. -/
structure AppState where
  currentQuestion : ℕ
  correctAnswers : ℕ
  streak : ℕ
  bestStreak : ℕ
  wrongAnswers : List ℕ
deriving DecidableEq

/-- resetQuizState from src/js/state.js: clears the per-session fields;
bestStreak is not among them. -/
def resetQuizState (s : AppState) : AppState :=
  { s with currentQuestion := 0, correctAnswers := 0, streak := 0, wrongAnswers := [] }

/-- updateStreak from src/js/state.js: a correct answer increments the
streak and raises the best-streak high-water mark; an incorrect answer
resets the streak to 0. -/
def updateStreak (s : AppState) (isCorrect : Bool) : AppState :=
  if isCorrect then
    let streak := s.streak + 1
    if streak > s.bestStreak then { s with streak := streak, bestStreak := streak }
    else { s with streak := streak }
  else { s with streak := 0 }

/-- The state change of checkAnswer in the quiz engine: count the answer,
record a wrong answer, then update the streak. -/
def answerUpdate (s : AppState) (isCorrect : Bool) (signId : ℕ) : AppState :=
  updateStreak
    (if isCorrect then { s with correctAnswers := s.correctAnswers + 1 }
     else { s with wrongAnswers := s.wrongAnswers ++ [signId] })
    isCorrect

/-- The bestStreak field finishQuiz writes into the saved QuizSession
record: Math.max(state.streak, state.bestStreak). -/
def finishQuizBestStreak (s : AppState) : ℕ :=
  max s.streak s.bestStreak

/-- One full session: reset the quiz state, then process the answers. -/
def runSession (s : AppState) (answers : List (Bool × ℕ)) : AppState :=
  answers.foldl (fun st a => answerUpdate st a.1 a.2) (resetQuizState s)

/-- The streak values reached after each answer of a session. -/
def sessionStreaks (s : AppState) : List (Bool × ℕ) → List ℕ
  | [] => []
  | a :: rest => (answerUpdate s a.1 a.2).streak :: sessionStreaks (answerUpdate s a.1 a.2) rest

/-- Fresh application state with no persisted best streak. -/
def initialState : AppState := ⟨0, 0, 0, 0, []⟩

/-- State after a first session of five straight correct answers. -/
def stateAfterSession1 : AppState :=
  runSession initialState [(true, 1), (true, 2), (true, 3), (true, 4), (true, 5)]

/-- Answers of a second session whose own best streak is only 2. -/
def session2Answers : List (Bool × ℕ) := [(true, 6), (true, 7), (false, 8)]

/-- State after the second session. -/
def stateAfterSession2 : AppState := runSession stateAfterSession1 session2Answers

/-- C10: the bestStreak stored by finishQuiz is max(streak, bestStreak),
resetQuizState preserves the lifetime best streak, and in a concrete pair
of sessions — five straight correct answers, then a session whose streaks
never pass 2 — the second session record stores bestStreak 5, exceeding
every streak achieved within that session. -/
theorem bestStreak_carries_over :
    (∀ s : AppState, (resetQuizState s).bestStreak = s.bestStreak) ∧
    (∀ s : AppState, finishQuizBestStreak s = max s.streak s.bestStreak) ∧
    finishQuizBestStreak stateAfterSession2 = 5 ∧
    (∀ x ∈ sessionStreaks (resetQuizState stateAfterSession1) session2Answers,
      x < finishQuizBestStreak stateAfterSession2) := by
  refine ⟨fun s => rfl, fun s => rfl, by decide, by decide⟩

end Vagmarken
